import Mathlib

/-!
Verification of the voice-recorder client core.

This development shallowly embeds the state-bearing logic of the
voice-recorder web application and proves properties of it:

- the capture-session lifecycle of src/App.tsx (startRecording,
  stopRecording, the MediaRecorder ondataavailable/onstop handlers, the
  elapsed-time interval timer, and the record-button dispatch);
- the persistence gateway of src/context/AuthContext.tsx (saveRecording,
  deleteRecording, loadUserData) over an explicit model of the external
  object store and relational store, following the collaborator contracts;
- the save modal's title validation of src/components/SaveRecordingModal.tsx;
- the dashboard playback controller of src/components/Dashboard.tsx
  (playRecording, currentlyPlaying) and its list sorting;
- the live waveform renderer of src/components/WaveformVisualizer.tsx
  (the draw loop, its animation-frame scheduling and cleanup, and the
  point mapping onto the canvas).

Machine integers and doubles are modelled as Nat and Rat (exact
arithmetic); browser Blobs as byte lists; fallible external calls as
Except-valued parameters supplied by the environment.
-/

namespace VoiceRecorder

/-- A browser Blob, modelled by its byte contents. -/
structure Blob where
  data : List Nat
deriving DecidableEq

/-- Blob.size: the byte length of a blob. -/
def Blob.size (b : Blob) : Nat := b.data.length

/-- Embedding of new Blob(audioChunksRef.current, ...): concatenation of the
buffered chunks in buffer order (App.tsx onstop handler). -/
def concatChunks (cs : List Blob) : Blob := ⟨(cs.map Blob.data).flatten⟩

/-- Phase of the capture session held by App.tsx. The recording flag
isRecording is true exactly in the recording phase; stopped is the phase
after a successful stop (recorder still referenced, flag false). -/
inductive CapturePhase
  | idle
  | recording
  | stopped
deriving DecidableEq

/-- State owned by the App component for one capture session: the
isRecording flag (as the phase), mediaRecorderRef, audioChunksRef,
timerRef, the startTime captured in the startRecording closure (ms), the
recordingTime state (seconds), and the audioBlob state. -/
structure CaptureState where
  phase : CapturePhase
  recorder : Option Nat
  chunks : List Blob
  timer : Option Nat
  startTime : ℚ
  elapsed : ℚ
  audioBlob : Option Blob
deriving DecidableEq

/-- Events driving the capture session: getUserMedia resolving (with the
fresh recorder and interval-timer identifiers and the current wall clock in
ms), getUserMedia rejecting, a MediaRecorder dataavailable event, an
interval-timer tick, and the stopRecording call. -/
inductive CaptureEv
  | startGranted (mrId tid : Nat) (now : ℚ)
  | startDenied
  | dataAvailable (b : Blob)
  | tick (now : ℚ)
  | stop
deriving DecidableEq

/-- Observable outputs of a capture-session step: the onstop handler
completing with the assembled artifact (and the recordingTime that the save
modal will receive as duration), and the permission alert of the
startRecording catch block. -/
inductive CaptureOut
  | stoppedEvent (artifact : Blob) (duration : ℚ)
  | permissionAlert
deriving DecidableEq

/-- Embedding of the capture-session step (App.tsx):

- startGranted: body of startRecording after getUserMedia resolves — a new
  recorder is stored in mediaRecorderRef, audioChunksRef is reset to [],
  audioBlob is cleared, recording starts, and a fresh interval timer is
  installed with startTime = Date.now(); there is no guard on the current
  phase.
- startDenied: the catch block — alert only, no state change.
- dataAvailable: the ondataavailable handler — pushes the chunk onto
  audioChunksRef only when its size is positive (only while recording, the
  recorder being live only then).
- tick: the interval callback — recordingTime = (Date.now() - startTime)/1000.
- stop: stopRecording — guarded by mediaRecorderRef.current && isRecording;
  when it fires, the timer is cleared and (via MediaRecorder.stop → onstop)
  the buffered chunks are concatenated into the single artifact, stored in
  audioBlob, and the save modal opens with the final recordingTime. -/
def stepCapture (s : CaptureState) (e : CaptureEv) : CaptureState × List CaptureOut :=
  match e with
  | .startGranted mrId tid now =>
      ({ phase := .recording, recorder := some mrId, chunks := [],
         timer := some tid, startTime := now, elapsed := s.elapsed,
         audioBlob := none }, [])
  | .startDenied => (s, [.permissionAlert])
  | .dataAvailable b =>
      if s.phase = .recording ∧ 0 < b.size then
        ({ s with chunks := s.chunks ++ [b] }, [])
      else (s, [])
  | .tick now =>
      if s.phase = .recording then
        ({ s with elapsed := (now - s.startTime) / 1000 }, [])
      else (s, [])
  | .stop =>
      if s.recorder.isSome ∧ s.phase = .recording then
        ({ s with
            phase := .stopped, timer := none,
            audioBlob := some (concatChunks s.chunks) },
         [.stoppedEvent (concatChunks s.chunks) s.elapsed])
      else (s, [])

/-- Which handler the record button invokes on a click. -/
inductive ButtonAction
  | invokeStop
  | invokeStart
deriving DecidableEq

/-- Embedding of the record button's onClick dispatch in App.tsx:
onClick is stopRecording when isRecording and startRecording otherwise. -/
def recordButtonAction (s : CaptureState) : ButtonAction :=
  if s.phase = .recording then .invokeStop else .invokeStart

/-- The App state before any session: no recorder, no timer, empty buffer. -/
def initCapture : CaptureState :=
  { phase := .idle, recorder := none, chunks := [], timer := none,
    startTime := 0, elapsed := 0, audioBlob := none }

/-- A concrete mid-recording state with one buffered chunk, one recorder and
one live timer. -/
def recState : CaptureState :=
  { phase := .recording, recorder := some 0, chunks := [⟨[7, 7]⟩],
    timer := some 0, startTime := 0, elapsed := 2, audioBlob := none }

/-- Embedding of JavaScript String.prototype.split with a one-character
separator, accumulator form: splits the character list at every occurrence
of the separator. -/
def splitCharAux (c : Char) : List Char → List Char → List (List Char)
  | [], acc => [acc.reverse]
  | x :: xs, acc =>
    if x = c then acc.reverse :: splitCharAux c xs []
    else splitCharAux c xs (x :: acc)

/-- JavaScript url.split(c): the list of fields between separators. -/
def jsSplit (s : String) (c : Char) : List String :=
  (splitCharAux c s.data []).map String.mk

/-- JavaScript title.trim(): strip leading and trailing whitespace. -/
def jsTrim (s : String) : String :=
  String.mk (((s.data.dropWhile Char.isWhitespace).reverse.dropWhile
    Char.isWhitespace).reverse)

/-- JavaScript url.split('/').pop(): the last field of the split (split of
any string is non-empty, so pop returns a value; the empty string stands for
the falsy values). -/
def fileNameOf (url : String) : String :=
  ((jsSplit url '/').getLast?).getD ""

/-- User profile as held in AuthContext state. -/
structure User where
  id : String
  username : String
  email : String
deriving DecidableEq

/-- Recording metadata as held in AuthContext state (the mapped shape used
by the UI). Timestamps are modelled as natural-number epoch milliseconds. -/
structure Recording where
  id : String
  userId : String
  title : String
  date : ℕ
  audioUrl : String
  duration : ℚ
deriving DecidableEq

/-- One row of the recordings table (supabase migration shape). -/
structure Row where
  id : String
  user_id : String
  title : String
  audio_url : String
  duration : ℚ
  created_at : ℕ
deriving DecidableEq

/-- State of the external backend collaborator: the recordings storage
bucket (key to bytes) and the recordings table. -/
structure Backend where
  objects : List (String × Blob)
  rows : List Row
deriving DecidableEq

/-- Contract of supabase.storage.upload with upsert: false — fails when the
key already exists, otherwise stores the object under the key. -/
def storageUpload (be : Backend) (key : String) (b : Blob) :
    Except String Backend :=
  if (be.objects.map Prod.fst).contains key then
    .error "The resource already exists"
  else .ok { be with objects := be.objects ++ [(key, b)] }

/-- Base of public storage URLs for the recordings bucket. -/
def storageUrlBase : String :=
  "https://qcywplfvzwxcatofizdx.supabase.co/storage/v1/object/public/recordings/"

/-- Contract of supabase.storage.getPublicUrl: durable URL for a key. -/
def getPublicUrl (key : String) : String := storageUrlBase ++ key

/-- Contract of the insert into the recordings table: created_at defaults to
now() and the id is server-assigned (passed here as freshId). -/
def dbInsertRecording (be : Backend) (freshId uid title url : String)
    (duration : ℚ) (now : ℕ) : Backend :=
  let row : Row :=
    { id := freshId, user_id := uid, title := title, audio_url := url,
      duration := duration, created_at := now }
  { be with rows := be.rows ++ [row] }

/-- Ordering used by order('created_at', ascending: false): newer or equal
rows first. -/
def rowNewerEq (a b : Row) : Prop := b.created_at ≤ a.created_at

instance : DecidableRel rowNewerEq := fun a b =>
  inferInstanceAs (Decidable (b.created_at ≤ a.created_at))

instance : IsTotal Row rowNewerEq :=
  ⟨fun a b => Nat.le_total b.created_at a.created_at⟩

instance : IsTrans Row rowNewerEq :=
  ⟨fun _ _ _ h₁ h₂ => Nat.le_trans h₂ h₁⟩

/-- Contract of from('recordings').select('*').eq('user_id', uid)
.order('created_at', ascending: false): the owner's rows, newest first. -/
def selectRecordingsDesc (be : Backend) (uid : String) : List Row :=
  List.insertionSort rowNewerEq (be.rows.filter fun r => r.user_id = uid)

/-- Mapping of a table row to the Recording shape kept in context state
(loadUserData and saveRecording use the same mapping). -/
def rowToRecording (r : Row) : Recording :=
  { id := r.id, userId := r.user_id, title := r.title, date := r.created_at,
    audioUrl := r.audio_url, duration := r.duration }

/-- Recordings as loaded into context state by loadUserData (and re-loaded
by saveRecording): the owner's rows ordered newest first, mapped. -/
def loadRecordings (be : Backend) (uid : String) : List Recording :=
  (selectRecordingsDesc be uid).map rowToRecording

/-- Network calls the save path can issue, in order. -/
inductive NetworkCall
  | storageUploadCall
  | insertRowCall
  | reloadListCall
deriving DecidableEq

/-- Embedding of saveRecording (AuthContext.tsx): with no user it throws
before any network call; otherwise it uploads the blob under the key
userId/Date.now().wav, derives the public URL, inserts the metadata row and
reloads the owner's list ordered newest first. Result: outcome (the new
backend and the list assigned by setRecordings, or the thrown message) plus
the network calls issued. -/
def saveRecording (user : Option User) (be : Backend) (nowMs : ℕ)
    (freshId title : String) (b : Blob) (dur : ℚ) :
    Except String (Backend × List Recording) × List NetworkCall :=
  match user with
  | none => (.error "User not authenticated", [])
  | some u =>
    let key := u.id ++ "/" ++ toString nowMs ++ ".wav"
    match storageUpload be key b with
    | .error e => (.error e, [.storageUploadCall])
    | .ok be₁ =>
      let url := getPublicUrl key
      let be₂ := dbInsertRecording be₁ freshId u.id title url dur nowMs
      (.ok (be₂, loadRecordings be₂ u.id),
       [.storageUploadCall, .insertRowCall, .reloadListCall])

/-- Embedding of deleteRecording (AuthContext.tsx). The external calls are
passed as parameters: the fetched audio_url of the row, the storage remove,
and the table delete. The code first fetches the row's audio_url, then —
when the popped file name is truthy — removes userId/fileName from storage,
throwing on a storage error; only then does it delete the row and filter the
recording out of the visible state. An ok result is the list assigned by
setRecordings (unchanged when no user is present); a thrown error leaves the
visible state unassigned. -/
def deleteRecording (user : Option User) (recordings : List Recording)
    (rid : String) (fetchAudioUrl : Except String String)
    (storageRemove : String → Except String Unit)
    (dbDelete : Except String Unit) : Except String (List Recording) :=
  match user with
  | none => .ok recordings
  | some u =>
    match fetchAudioUrl with
    | .error e => .error e
    | .ok url =>
      let f := fileNameOf url
      let storageStep : Except String Unit :=
        if f ≠ "" then storageRemove (u.id ++ "/" ++ f) else .ok ()
      match storageStep with
      | .error e => .error e
      | .ok _ =>
        match dbDelete with
        | .error e => .error e
        | .ok _ => .ok (recordings.filter fun r => r.id ≠ rid)

/-- The recordings state visible to the caller after a delete attempt:
setRecordings runs only on the success path, so a thrown error leaves the
previous list in place. -/
def visibleAfterDelete (user : Option User) (recordings : List Recording)
    (rid : String) (fetchAudioUrl : Except String String)
    (storageRemove : String → Except String Unit)
    (dbDelete : Except String Unit) : List Recording :=
  match deleteRecording user recordings rid fetchAudioUrl storageRemove
      dbDelete with
  | .ok l => l
  | .error _ => recordings

/-- Ordering used by the Dashboard comparator (a, b) => b.date - a.date. -/
def recNewerEq (a b : Recording) : Prop := b.date ≤ a.date

instance : DecidableRel recNewerEq := fun a b =>
  inferInstanceAs (Decidable (b.date ≤ a.date))

instance : IsTotal Recording recNewerEq :=
  ⟨fun a b => Nat.le_total b.date a.date⟩

instance : IsTrans Recording recNewerEq :=
  ⟨fun _ _ _ h₁ h₂ => Nat.le_trans h₂ h₁⟩

/-- Embedding of the Dashboard sortedRecordings step: sort the (already
filtered) list by date, newest first. -/
def sortedRecordings (l : List Recording) : List Recording :=
  List.insertionSort recNewerEq l

/-- UI state of the save modal: the isSaving flag and the error banner. -/
structure SaveUIState where
  isSaving : Bool
  errorMsg : Option String
deriving DecidableEq

/-- Validation message shown for a blank title. -/
def validationMessage : String := "Please enter a title for your recording"

/-- Embedding of handleSave (SaveRecordingModal.tsx): a title that trims to
empty sets the error banner and returns before any work; otherwise the save
runs (isSaving toggled on, then off in the finally block), the error banner
reports a thrown message, and onSaved fires only on success. Result: final
UI state, network calls issued, and the save outcome (none when the modal
did not complete a save). -/
def handleSave (title : String) (ui : SaveUIState) (user : Option User)
    (be : Backend) (nowMs : ℕ) (freshId : String) (b : Blob) (dur : ℚ) :
    SaveUIState × List NetworkCall × Option (Backend × List Recording) :=
  if jsTrim title = "" then
    ({ ui with errorMsg := some validationMessage }, [], none)
  else
    match saveRecording user be nowMs freshId title b dur with
    | (.ok (be₂, recs), calls) =>
        ({ isSaving := false, errorMsg := none }, calls, some (be₂, recs))
    | (.error e, calls) =>
        ({ isSaving := false, errorMsg := some e }, calls, none)

/-- Dashboard playback state: the currentlyPlaying id and the audioElements
map, each element carrying whether it is currently playing (un-paused). -/
structure PlayerState where
  currentlyPlaying : Option String
  elements : List (String × Bool)
deriving DecidableEq

/-- Calls made on audio elements by the playback handler, in order. -/
inductive AudioAction
  | pauseAudio (id : String)
  | playAudio (id : String)
deriving DecidableEq

/-- Set the playing flag of the element stored under a key. -/
def setElemPlaying (es : List (String × Bool)) (k : String) (v : Bool) :
    List (String × Bool) :=
  es.map fun p => if p.1 = k then (p.1, v) else p

/-- Embedding of the audioElements[id] map access: the playing flag of the
element stored under the key, when one is mapped. -/
def lookupFlag (k : String) : List (String × Bool) → Option Bool
  | [] => none
  | p :: es => if p.1 = k then some p.2 else lookupFlag k es

/-- Embedding of playRecording (Dashboard.tsx): first pause the currently
playing element when one is mapped; clicking the playing item itself only
clears currentlyPlaying; otherwise get or create the element for the chosen
id (a fresh element starts paused), play it and mark it current. -/
def playRecording (s : PlayerState) (rid : String) :
    PlayerState × List AudioAction :=
  let paused :=
    match s.currentlyPlaying with
    | some cur =>
        if (lookupFlag cur s.elements).isSome then
          (setElemPlaying s.elements cur false, [AudioAction.pauseAudio cur])
        else (s.elements, [])
    | none => (s.elements, [])
  if s.currentlyPlaying = some rid then
    ({ currentlyPlaying := none, elements := paused.1 }, paused.2)
  else
    let es₂ :=
      if (lookupFlag rid paused.1).isSome then paused.1
      else paused.1 ++ [(rid, false)]
    ({ currentlyPlaying := some rid,
       elements := setElemPlaying es₂ rid true },
     paused.2 ++ [AudioAction.playAudio rid])

/-- Invariant of the dashboard list: an element may be playing only when it
is the one marked currentlyPlaying. -/
def onlyCurrentPlays (s : PlayerState) : Prop :=
  ∀ p ∈ s.elements, p.2 = true → s.currentlyPlaying = some p.1

/-- State of the animation-frame scheduler seen by the live-mode effect:
the pending handles, the animationRef cell, and the fresh-handle counter. -/
structure RafState where
  pending : List Nat
  animationRef : Option Nat
  nextHandle : Nat
deriving DecidableEq

/-- requestAnimationFrame: schedules a fresh handle and returns it. -/
def rafRequest (s : RafState) : Nat × RafState :=
  (s.nextHandle,
   { s with
       pending := s.pending ++ [s.nextHandle],
       nextHandle := s.nextHandle + 1 })

/-- Body of draw (WaveformVisualizer.tsx live mode): its first statement is
animationRef.current = requestAnimationFrame(draw); the canvas work that
follows does not touch the scheduler. -/
def drawBody (s : RafState) : RafState :=
  let r := rafRequest s
  { r.2 with animationRef := some r.1 }

/-- Start of the live-mode effect: it invokes draw() once directly. -/
def liveEffectStart (s : RafState) : RafState := drawBody s

/-- The browser firing an animation frame: one pending handle is consumed
and its callback — draw — runs. With no pending handle nothing fires. -/
def fireAnimationFrame (s : RafState) : RafState :=
  match s.pending with
  | [] => s
  | _ :: rest => drawBody { s with pending := rest }

/-- Cleanup of the live-mode effect: if (animationRef.current)
cancelAnimationFrame(animationRef.current). -/
def liveEffectCleanup (s : RafState) : RafState :=
  match s.animationRef with
  | some h => { s with pending := s.pending.erase h }
  | none => s

/-- Scheduler invariant of the live draw loop: at most one handle is
pending, and it is the one stored in animationRef. -/
def rafInv (s : RafState) : Prop :=
  s.pending = [] ∨ ∃ h, s.pending = [h] ∧ s.animationRef = some h

/-- Canvas path commands issued by draw. -/
inductive PathCmd
  | beginPath
  | moveTo (x y : ℚ)
  | lineTo (x y : ℚ)
  | stroke
deriving DecidableEq

/-- Embedding of the point loop of draw: for each sample the normalized
value v = sample/128.0 gives y = v·(height/2); the first iteration issues
moveTo and the rest lineTo; x advances by sliceWidth after each point. -/
def drawLoopCmds (sliceWidth h : ℚ) :
    List Nat → ℚ → Bool → List PathCmd
  | [], _, _ => []
  | d :: ds, x, isFirst =>
    (if isFirst then PathCmd.moveTo x (((d : ℚ) / 128) * (h / 2))
     else PathCmd.lineTo x (((d : ℚ) / 128) * (h / 2))) ::
      drawLoopCmds sliceWidth h ds (x + sliceWidth) false

/-- Embedding of one invocation of draw on the current sample buffer:
beginPath, the polyline over the buffer with sliceWidth = width/N starting
at x = 0, the closing lineTo(width, height/2), and a single stroke. -/
def drawCommands (data : List Nat) (w h : ℚ) : List PathCmd :=
  [PathCmd.beginPath] ++
    drawLoopCmds (w / (data.length : ℚ)) h data 0 true ++
    [PathCmd.lineTo w (h / 2), PathCmd.stroke]

/-- A concrete user. -/
def userW : User :=
  { id := "u1", username := "alice", email := "alice@example.com" }

/-- A concrete stored recording owned by userW. -/
def recSample : Recording :=
  { id := "r1", userId := "u1", title := "Test", date := 5,
    audioUrl := getPublicUrl "u1/5.wav", duration := 1 }

/-- An empty backend. -/
def beW : Backend := { objects := [], rows := [] }

/-- The row inserted by a save of title Test at time 5 by userW. -/
def rowW : Row :=
  { id := "rec1", user_id := "u1", title := "Test",
    audio_url := getPublicUrl "u1/5.wav", duration := 1, created_at := 5 }

/-- The backend after that save. -/
def beW₂ : Backend :=
  { objects := [("u1/5.wav", ⟨[1]⟩)], rows := [rowW] }

/-- The recordings list reloaded after that save. -/
def recsW : List Recording := [rowToRecording rowW]

/-- A dashboard state in which item A is mapped and playing. -/
def playerW : PlayerState :=
  { currentlyPlaying := some "A", elements := [("A", true)] }

/-- The scheduler state before the live-mode effect runs. -/
def rafW : RafState := { pending := [], animationRef := none, nextHandle := 0 }

/-- C10: invoking stopRecording when no recorder exists or the recording
flag is false is a no-op — the App state (recorder, chunk buffer, timer,
elapsed time, audio blob) is unchanged and no stopped event or artifact is
emitted. -/
theorem stop_without_active_recording_is_noop (s : CaptureState)
    (h : ¬(s.recorder.isSome = true ∧ s.phase = CapturePhase.recording)) :
    stepCapture s CaptureEv.stop = (s, []) := by
  simp only [stepCapture]
  rw [if_neg h]

/-- Witness for C10 at the initial App state. -/
theorem stop_without_active_recording_is_noop_witness :
    stepCapture initCapture CaptureEv.stop = (initCapture, []) :=
  stop_without_active_recording_is_noop initCapture (by decide)

/-- C2 counterexample: in a Recording state with a buffered chunk, running
the startRecording body (microphone granted) does not leave the first
session's state unchanged — the chunk buffer is cleared and the recorder
and timer are replaced. -/
theorem second_start_counterexample :
    recState.phase = CapturePhase.recording ∧
    ((stepCapture recState (CaptureEv.startGranted 1 1 5)).1).chunks ≠
      recState.chunks ∧
    ((stepCapture recState (CaptureEv.startGranted 1 1 5)).1).recorder ≠
      recState.recorder ∧
    ((stepCapture recState (CaptureEv.startGranted 1 1 5)).1).timer ≠
      recState.timer := by
  decide

/-- C2 amended: while a session is Recording, the record button dispatches
stopRecording — never startRecording — so a second start cannot be issued
through the UI control; the startRecording body itself, if invoked while
Recording, does not reject or ignore the call: it resets the chunk buffer
and installs a fresh recorder and timer. -/
theorem second_start_only_ui_guarded (s : CaptureState)
    (h : s.phase = CapturePhase.recording) (mrId tid : Nat) (now : ℚ) :
    recordButtonAction s = ButtonAction.invokeStop ∧
    ((stepCapture s (CaptureEv.startGranted mrId tid now)).1).chunks = [] ∧
    ((stepCapture s (CaptureEv.startGranted mrId tid now)).1).recorder =
      some mrId ∧
    ((stepCapture s (CaptureEv.startGranted mrId tid now)).1).timer =
      some tid := by
  refine ⟨?_, rfl, rfl, rfl⟩
  simp [recordButtonAction, h]

/-- Witness for the amended C2 at a concrete mid-recording state. -/
theorem second_start_only_ui_guarded_witness :
    recordButtonAction recState = ButtonAction.invokeStop ∧
    ((stepCapture recState (CaptureEv.startGranted 1 1 5)).1).chunks = [] ∧
    ((stepCapture recState (CaptureEv.startGranted 1 1 5)).1).recorder =
      some 1 ∧
    ((stepCapture recState (CaptureEv.startGranted 1 1 5)).1).timer =
      some 1 :=
  second_start_only_ui_guarded recState rfl 1 1 5

/-- C3: a title that is empty or whitespace-only is rejected by handleSave
with the validation error before any network call — no storage upload, no
metadata write, no reload — and the save state is unchanged apart from the
error banner. -/
theorem blank_title_rejected_before_network (title : String)
    (ui : SaveUIState) (user : Option User) (be : Backend) (nowMs : ℕ)
    (freshId : String) (b : Blob) (dur : ℚ) (h : jsTrim title = "") :
    handleSave title ui user be nowMs freshId b dur =
      ({ ui with errorMsg := some validationMessage }, [], none) := by
  unfold handleSave
  rw [if_pos h]

/-- Witness for C3 at a whitespace-only title. -/
theorem blank_title_rejected_before_network_witness :
    handleSave " \t " { isSaving := false, errorMsg := none } (some userW)
        beW 5 "rec1" ⟨[1]⟩ 1 =
      ({ isSaving := false, errorMsg := some validationMessage }, [], none) :=
  blank_title_rejected_before_network " \t " ⟨false, none⟩ (some userW) beW
    5 "rec1" ⟨[1]⟩ 1 (by decide)

/-- C1 counterexample: deleting recording r1 while the storage removal
fails throws the storage error before the metadata delete, so the recording
is not removed from the caller's visible list. -/
theorem delete_survives_storage_failure_counterexample :
    deleteRecording (some userW) [recSample] "r1"
        (Except.ok recSample.audioUrl)
        (fun _ => Except.error "storage down") (Except.ok ()) =
      Except.error "storage down" ∧
    visibleAfterDelete (some userW) [recSample] "r1"
        (Except.ok recSample.audioUrl)
        (fun _ => Except.error "storage down") (Except.ok ()) =
      [recSample] := by
  refine ⟨rfl, rfl⟩

/-- C1 amended: delete removes the recording from the visible list only
when every underlying step succeeds; when removal of the storage object
fails, the failure is surfaced as the thrown error and the metadata row is
not removed from the caller's visible state. -/
theorem delete_blocked_by_storage_failure (u : User) (recs : List Recording)
    (rid url e : String) (dbDel : Except String Unit)
    (hf : fileNameOf url ≠ "") :
    deleteRecording (some u) recs rid (Except.ok url)
        (fun _ => Except.ok ()) (Except.ok ()) =
      Except.ok (recs.filter fun r => r.id ≠ rid) ∧
    deleteRecording (some u) recs rid (Except.ok url)
        (fun _ => Except.error e) dbDel = Except.error e ∧
    visibleAfterDelete (some u) recs rid (Except.ok url)
        (fun _ => Except.error e) dbDel = recs := by
  have hdel : deleteRecording (some u) recs rid (Except.ok url)
      (fun _ => Except.error e) dbDel = Except.error e := by
    simp only [deleteRecording]
    rw [if_pos hf]
  refine ⟨?_, hdel, ?_⟩
  · simp only [deleteRecording, ite_self]
  · simp only [visibleAfterDelete, hdel]

/-- Witness for the amended C1 at a concrete recording. -/
theorem delete_blocked_by_storage_failure_witness :
    deleteRecording (some userW) [recSample] "r1"
        (Except.ok recSample.audioUrl) (fun _ => Except.ok ())
        (Except.ok ()) =
      Except.ok (List.filter (fun r => r.id ≠ "r1") [recSample]) ∧
    deleteRecording (some userW) [recSample] "r1"
        (Except.ok recSample.audioUrl)
        (fun _ => Except.error "storage down") (Except.ok ()) =
      Except.error "storage down" ∧
    visibleAfterDelete (some userW) [recSample] "r1"
        (Except.ok recSample.audioUrl)
        (fun _ => Except.error "storage down") (Except.ok ()) =
      [recSample] :=
  delete_blocked_by_storage_failure userW [recSample] "r1"
    recSample.audioUrl "storage down" (Except.ok ()) (by decide)

/-- Concatenating a non-empty list of chunks that all have positive size
gives a blob of positive size. -/
theorem concatChunks_size_pos (cs : List Blob) (h : ∀ b ∈ cs, 0 < b.size)
    (hne : cs ≠ []) : 0 < (concatChunks cs).size := by
  cases cs with
  | nil => exact absurd rfl hne
  | cons c rest =>
    have hc : 0 < c.size := h c (List.mem_cons_self c rest)
    simp only [concatChunks, Blob.size, List.map_cons, List.flatten_cons,
      List.length_append]
    exact Nat.lt_of_lt_of_le hc (Nat.le_add_right _ _)

/-- C5 counterexample: a session started and stopped with no data events
completes — the stopped event fires with the (single) artifact — but that
artifact has byte length 0, not a positive byte length. -/
theorem single_artifact_positive_counterexample :
    (stepCapture (stepCapture initCapture
        (CaptureEv.startGranted 0 0 0)).1 CaptureEv.stop).2 =
      [CaptureOut.stoppedEvent ⟨[]⟩ 0] ∧
    Blob.size ⟨[]⟩ = 0 := by
  decide

/-- C5 amended: stopping a Recording session fires exactly one stopped
event carrying exactly one artifact — the concatenation of the buffered
chunks in order — and stores it; every buffered chunk has positive size
(the dataavailable guard, preserved by the step), so the artifact byte
length is positive whenever at least one chunk was buffered; the elapsed
reading is non-negative after any tick with a monotone clock; a repeated
stop emits nothing further; a denied start (the Failed transition) emits
only the permission alert — no stopped event and no artifact. -/
theorem capture_artifact_production (s : CaptureState)
    (hphase : s.phase = CapturePhase.recording)
    (hrecd : s.recorder.isSome = true)
    (hchunks : ∀ b ∈ s.chunks, 0 < b.size) :
    (stepCapture s CaptureEv.stop).2 =
      [CaptureOut.stoppedEvent (concatChunks s.chunks) s.elapsed] ∧
    ((stepCapture s CaptureEv.stop).1).audioBlob =
      some (concatChunks s.chunks) ∧
    (s.chunks ≠ [] → 0 < (concatChunks s.chunks).size) ∧
    stepCapture ((stepCapture s CaptureEv.stop).1) CaptureEv.stop =
      ((stepCapture s CaptureEv.stop).1, []) ∧
    (∀ t b, (∀ c ∈ t.chunks, 0 < c.size) →
       ∀ c ∈ ((stepCapture t (CaptureEv.dataAvailable b)).1).chunks,
         0 < c.size) ∧
    (∀ t now, t.phase = CapturePhase.recording → t.startTime ≤ now →
       0 ≤ ((stepCapture t (CaptureEv.tick now)).1).elapsed) ∧
    (∀ t : CaptureState,
       (stepCapture t CaptureEv.startDenied).2 =
         [CaptureOut.permissionAlert] ∧
       (stepCapture t CaptureEv.startDenied).1 = t) := by
  have hnoop : ∀ t : CaptureState, t.phase ≠ CapturePhase.recording →
      stepCapture t CaptureEv.stop = (t, []) := by
    intro t ht
    simp only [stepCapture]
    rw [if_neg (fun hc => ht hc.2)]
  have hstop : stepCapture s CaptureEv.stop =
      ({ s with
          phase := .stopped, timer := none,
          audioBlob := some (concatChunks s.chunks) },
       [CaptureOut.stoppedEvent (concatChunks s.chunks) s.elapsed]) := by
    simp only [stepCapture]
    rw [if_pos ⟨hrecd, hphase⟩]
  refine ⟨by rw [hstop], by rw [hstop],
    fun hne => concatChunks_size_pos s.chunks hchunks hne, ?_, ?_, ?_,
    fun t => ⟨rfl, rfl⟩⟩
  · rw [hstop]
    exact hnoop _ (by simp)
  · intro t b hall c hc
    simp only [stepCapture] at hc
    by_cases hcond : t.phase = CapturePhase.recording ∧ 0 < b.size
    · rw [if_pos hcond] at hc
      rcases List.mem_append.mp hc with hmem | hmem
      · exact hall c hmem
      · rw [List.mem_singleton.mp hmem]
        exact hcond.2
    · rw [if_neg hcond] at hc
      exact hall c hc
  · intro t now ht hle
    simp only [stepCapture]
    rw [if_pos ht]
    show 0 ≤ (now - t.startTime) / 1000
    exact div_nonneg (sub_nonneg.mpr hle) (by norm_num)

/-- Witness for the amended C5 at a concrete mid-recording state. -/
theorem capture_artifact_production_witness :
    (stepCapture recState CaptureEv.stop).2 =
      [CaptureOut.stoppedEvent (concatChunks recState.chunks)
        recState.elapsed] :=
  (capture_artifact_production recState rfl rfl (by decide)).1

/-- A row of the owner appears (mapped) in the loaded recordings list. -/
theorem mem_loadRecordings {be : Backend} {uid : String} {r : Row}
    (hmem : r ∈ be.rows) (huid : r.user_id = uid) :
    rowToRecording r ∈ loadRecordings be uid := by
  unfold loadRecordings selectRecordingsDesc
  apply List.mem_map_of_mem
  rw [List.mem_insertionSort, List.mem_filter]
  exact ⟨hmem, by simp [huid]⟩

/-- C4: a successful save — no user missing, upload key fresh — returns the
reloaded owner list, and that list contains an entry whose title, duration
and durable audio reference (the public URL of the uploaded key) equal what
was saved. -/
theorem save_roundtrip (u : User) (be : Backend) (nowMs : ℕ)
    (freshId title : String) (b : Blob) (dur : ℚ) (_htitle : title ≠ "")
    (hfresh : ((be.objects.map Prod.fst).contains
        (u.id ++ "/" ++ toString nowMs ++ ".wav")) = false) :
    ∃ be₂ recs,
      (saveRecording (some u) be nowMs freshId title b dur).1 =
        Except.ok (be₂, recs) ∧
      ∃ r ∈ recs, r.title = title ∧ r.duration = dur ∧
        r.audioUrl =
          getPublicUrl (u.id ++ "/" ++ toString nowMs ++ ".wav") := by
  have hupload : storageUpload be (u.id ++ "/" ++ toString nowMs ++ ".wav")
      b = Except.ok { be with
        objects := be.objects ++
          [(u.id ++ "/" ++ toString nowMs ++ ".wav", b)] } := by
    unfold storageUpload
    rw [if_neg (by rw [hfresh]; exact Bool.false_ne_true)]
  simp only [saveRecording, hupload]
  refine ⟨_, _, rfl, ?_⟩
  refine ⟨rowToRecording
    { id := freshId, user_id := u.id, title := title,
      audio_url := getPublicUrl (u.id ++ "/" ++ toString nowMs ++ ".wav"),
      duration := dur, created_at := nowMs }, ?_, rfl, rfl, rfl⟩
  apply mem_loadRecordings
  · simp [dbInsertRecording]
  · rfl

/-- Witness for C4: a concrete save into the empty backend round-trips. -/
theorem save_roundtrip_witness :
    ∃ be₂ recs,
      (saveRecording (some userW) beW 5 "rec1" "Test" ⟨[1]⟩ 1).1 =
        Except.ok (be₂, recs) ∧
      ∃ r ∈ recs, r.title = "Test" ∧ r.duration = 1 ∧
        r.audioUrl =
          getPublicUrl (userW.id ++ "/" ++ toString 5 ++ ".wav") :=
  save_roundtrip userW beW 5 "rec1" "Test" ⟨[1]⟩ 1 (by decide) (by decide)

/-- C8: the recordings list assigned to context state is ordered by
creation time, newest first — on initial load, after every successful save
(whose assigned list is the reload), and again by the Dashboard sort. -/
theorem recordings_newest_first :
    (∀ be uid, List.Sorted (fun a b : Recording => b.date ≤ a.date)
        (loadRecordings be uid)) ∧
    (∀ (u : User) (be : Backend) (nowMs : ℕ) (freshId title : String)
        (b : Blob) (dur : ℚ) (be₂ : Backend) (recs : List Recording),
        (saveRecording (some u) be nowMs freshId title b dur).1 =
          Except.ok (be₂, recs) →
        List.Sorted (fun a b : Recording => b.date ≤ a.date) recs) ∧
    (∀ l, List.Sorted (fun a b : Recording => b.date ≤ a.date)
        (sortedRecordings l)) := by
  have hload : ∀ be uid,
      List.Sorted (fun a b : Recording => b.date ≤ a.date)
        (loadRecordings be uid) := by
    intro be uid
    unfold loadRecordings
    exact List.Pairwise.map rowToRecording (fun a b hab => hab)
      (List.sorted_insertionSort rowNewerEq _)
  refine ⟨hload, ?_, ?_⟩
  · intro u be nowMs freshId title b dur be₂ recs h
    simp only [saveRecording] at h
    cases hup : storageUpload be (u.id ++ "/" ++ toString nowMs ++ ".wav")
        b with
    | error e =>
      rw [hup] at h
      simp at h
    | ok be₁ =>
      rw [hup] at h
      simp only [Except.ok.injEq, Prod.mk.injEq] at h
      rw [← h.2]
      exact hload _ _
  · intro l
    exact List.sorted_insertionSort recNewerEq l

/-- Witness for C8 at a concrete reloaded list. -/
theorem recordings_newest_first_witness :
    List.Sorted (fun a b : Recording => b.date ≤ a.date) recsW :=
  recordings_newest_first.2.1 userW beW 5 "rec1" "Test" ⟨[1]⟩ 1 beW₂
    recsW (by rfl)

/-- Setting the flag of key k makes a mapped k look up as that flag. -/
theorem lookupFlag_setElemPlaying_self (es : List (String × Bool))
    (k : String) (v : Bool) (h : (lookupFlag k es).isSome = true) :
    lookupFlag k (setElemPlaying es k v) = some v := by
  induction es with
  | nil => simp [lookupFlag] at h
  | cons p es ih =>
    by_cases hk : p.1 = k
    · simp [setElemPlaying, lookupFlag, hk]
    · have h' : (lookupFlag k es).isSome = true := by
        simpa [lookupFlag, hk] using h
      simp only [setElemPlaying, List.map_cons, if_neg hk, lookupFlag]
      exact ih h'

/-- Setting the flag of key k does not affect lookups of another key. -/
theorem lookupFlag_setElemPlaying_ne (es : List (String × Bool))
    (k k' : String) (v : Bool) (h : k' ≠ k) :
    lookupFlag k' (setElemPlaying es k v) = lookupFlag k' es := by
  induction es with
  | nil => simp [setElemPlaying]
  | cons p es ih =>
    by_cases hk : p.1 = k
    · by_cases hk' : p.1 = k'
      · exfalso
        rw [hk'] at hk
        exact h hk
      · simp only [setElemPlaying, List.map_cons, if_pos hk, lookupFlag]
        rw [if_neg hk', if_neg hk']
        exact ih
    · by_cases hk' : p.1 = k'
      · simp only [setElemPlaying, List.map_cons, if_neg hk, lookupFlag]
        rw [if_pos hk', if_pos hk']
      · simp only [setElemPlaying, List.map_cons, if_neg hk, lookupFlag]
        rw [if_neg hk', if_neg hk']
        exact ih

/-- A key mapped on the left keeps its lookup across an append. -/
theorem lookupFlag_append_isSome (es ys : List (String × Bool))
    (k : String) (h : (lookupFlag k es).isSome = true) :
    lookupFlag k (es ++ ys) = lookupFlag k es := by
  induction es with
  | nil => simp [lookupFlag] at h
  | cons p es ih =>
    by_cases hk : p.1 = k
    · simp [lookupFlag, hk]
    · have h' : (lookupFlag k es).isSome = true := by
        simpa [lookupFlag, hk] using h
      simp only [List.cons_append, lookupFlag]
      rw [if_neg hk, if_neg hk]
      exact ih h'

/-- A key absent on the left looks up as a freshly appended entry. -/
theorem lookupFlag_append_self (es : List (String × Bool)) (k : String)
    (v : Bool) (h : lookupFlag k es = none) :
    lookupFlag k (es ++ [(k, v)]) = some v := by
  induction es with
  | nil => simp [lookupFlag]
  | cons p es ih =>
    by_cases hk : p.1 = k
    · simp [lookupFlag, hk] at h
    · have h' : lookupFlag k es = none := by
        simpa [lookupFlag, hk] using h
      simp only [List.cons_append, lookupFlag]
      rw [if_neg hk]
      exact ih h'

/-- C6: selecting playback on item B while a mapped item A is playing
pauses A before B starts — the emitted actions are pause A then play B —
and afterwards B is the current item, A's element is paused, B's element is
playing, and the at-most-one-playing invariant still holds. -/
theorem exclusive_playback (s : PlayerState) (a b : String) (hab : a ≠ b)
    (hcur : s.currentlyPlaying = some a)
    (ha : (lookupFlag a s.elements).isSome = true)
    (hinv : onlyCurrentPlays s) :
    (playRecording s b).2 =
      [AudioAction.pauseAudio a, AudioAction.playAudio b] ∧
    ((playRecording s b).1).currentlyPlaying = some b ∧
    lookupFlag a ((playRecording s b).1).elements = some false ∧
    lookupFlag b ((playRecording s b).1).elements = some true ∧
    onlyCurrentPlays (playRecording s b).1 := by
  have hne : ¬ s.currentlyPlaying = some b := by
    rw [hcur]
    simp [hab]
  have ha1 : lookupFlag a (setElemPlaying s.elements a false) =
      some false := lookupFlag_setElemPlaying_self s.elements a false ha
  have hred : playRecording s b =
      ({ currentlyPlaying := some b,
         elements := setElemPlaying
           (if (lookupFlag b (setElemPlaying s.elements a false)).isSome
            then setElemPlaying s.elements a false
            else setElemPlaying s.elements a false ++ [(b, false)]) b true },
       [AudioAction.pauseAudio a, AudioAction.playAudio b]) := by
    simp [playRecording, hcur, ha, hne, hab]
  rw [hred]
  refine ⟨rfl, rfl, ?_, ?_, ?_⟩
  · by_cases hb :
        (lookupFlag b (setElemPlaying s.elements a false)).isSome = true
    · rw [if_pos hb, lookupFlag_setElemPlaying_ne _ _ _ _ hab, ha1]
    · rw [if_neg hb, lookupFlag_setElemPlaying_ne _ _ _ _ hab,
        lookupFlag_append_isSome _ _ _ (by rw [ha1]; rfl), ha1]
  · by_cases hb :
        (lookupFlag b (setElemPlaying s.elements a false)).isSome = true
    · rw [if_pos hb]
      exact lookupFlag_setElemPlaying_self _ b true hb
    · rw [if_neg hb]
      apply lookupFlag_setElemPlaying_self
      rw [lookupFlag_append_self _ b false
        (Option.not_isSome_iff_eq_none.mp hb)]
      rfl
  · intro p hp hptrue
    show some b = some p.1
    obtain ⟨q, hq, hfq⟩ := List.mem_map.mp hp
    by_cases hq1 : q.1 = b
    · rw [if_pos hq1] at hfq
      rw [← hfq]
      exact congrArg some hq1.symm
    · rw [if_neg hq1] at hfq
      subst hfq
      exfalso
      have hq' : q ∈ setElemPlaying s.elements a false := by
        by_cases hb : (lookupFlag b
            (setElemPlaying s.elements a false)).isSome = true
        · rwa [if_pos hb] at hq
        · rw [if_neg hb] at hq
          rcases List.mem_append.mp hq with hmem | hmem
          · exact hmem
          · rw [List.mem_singleton.mp hmem] at hptrue
            exact (Bool.false_ne_true hptrue).elim
      obtain ⟨r, hr, hgr⟩ := List.mem_map.mp hq'
      by_cases hr1 : r.1 = a
      · rw [if_pos hr1] at hgr
        rw [← hgr] at hptrue
        exact Bool.false_ne_true hptrue
      · rw [if_neg hr1] at hgr
        subst hgr
        have hcr := hinv r hr hptrue
        rw [hcur] at hcr
        exact hr1 (Option.some.inj hcr).symm

/-- Witness for C6 at a two-item dashboard. -/
theorem exclusive_playback_witness :
    (playRecording playerW "B").2 =
      [AudioAction.pauseAudio "A", AudioAction.playAudio "B"] ∧
    ((playRecording playerW "B").1).currentlyPlaying = some "B" ∧
    lookupFlag "A" ((playRecording playerW "B").1).elements = some false ∧
    lookupFlag "B" ((playRecording playerW "B").1).elements = some true ∧
    onlyCurrentPlays (playRecording playerW "B").1 :=
  exclusive_playback playerW "A" "B" (by decide) rfl (by decide)
    (by
      intro p hp ht
      rw [List.mem_singleton.mp hp]
      rfl)

/-- Starting the live effect from a quiescent scheduler establishes the
scheduler invariant. -/
theorem rafInv_liveEffectStart (s : RafState) (h : s.pending = []) :
    rafInv (liveEffectStart s) := by
  right
  refine ⟨s.nextHandle, ?_, rfl⟩
  simp [liveEffectStart, drawBody, rafRequest, h]

/-- Firing an animation frame preserves the scheduler invariant: the fired
handle leaves the pending set and draw schedules exactly one successor,
stored in animationRef. -/
theorem rafInv_fire (s : RafState) (h : rafInv s) :
    rafInv (fireAnimationFrame s) := by
  rcases h with h | ⟨hh, hp, hr⟩
  · have hfs : fireAnimationFrame s = s := by
      unfold fireAnimationFrame
      rw [h]
    rw [hfs]
    exact Or.inl h
  · have hfs : fireAnimationFrame s = drawBody { s with pending := [] } := by
      unfold fireAnimationFrame
      rw [hp]
    rw [hfs]
    right
    exact ⟨s.nextHandle, by simp [drawBody, rafRequest],
      by simp [drawBody, rafRequest]⟩

/-- Under the scheduler invariant, the effect cleanup cancels the one
pending handle: nothing remains scheduled. -/
theorem rafInv_cleanup (s : RafState) (h : rafInv s) :
    (liveEffectCleanup s).pending = [] := by
  rcases h with h | ⟨hh, hp, hr⟩
  · unfold liveEffectCleanup
    cases har : s.animationRef with
    | none => exact h
    | some x =>
      show (s.pending.erase x) = []
      rw [h]
      rfl
  · unfold liveEffectCleanup
    rw [hr]
    show (s.pending.erase hh) = []
    rw [hp]
    simp

/-- C7: after the live-mode effect starts its draw loop, however many
animation frames fire, running the effect cleanup (which runs when capture
stops) leaves no scheduled animation-frame callback pending — no dangling
scheduled redraw survives the stop. -/
theorem no_dangling_redraw_after_stop (n : ℕ) (s₀ : RafState)
    (h : s₀.pending = []) :
    (liveEffectCleanup
      (fireAnimationFrame^[n] (liveEffectStart s₀))).pending = [] := by
  apply rafInv_cleanup
  induction n with
  | zero => simpa using rafInv_liveEffectStart s₀ h
  | succ n ih =>
    rw [Function.iterate_succ_apply']
    exact rafInv_fire _ ih

/-- Witness for C7: two frames fire, then cleanup leaves nothing pending. -/
theorem no_dangling_redraw_after_stop_witness :
    (liveEffectCleanup
      (fireAnimationFrame^[2] (liveEffectStart rafW))).pending = [] :=
  no_dangling_redraw_after_stop 2 rafW rfl

/-- The point loop emits one command per sample. -/
theorem drawLoopCmds_length (sw hh : ℚ) (ds : List Nat) (x : ℚ)
    (f : Bool) : (drawLoopCmds sw hh ds x f).length = ds.length := by
  induction ds generalizing x f with
  | nil => rfl
  | cons d ds ih => simp [drawLoopCmds, ih]

/-- The command for sample i of the point loop sits at x plus i slice
widths, at height (sample/128)·(h/2); it is moveTo exactly for the first
iteration of a first-flagged run and lineTo otherwise. -/
theorem drawLoopCmds_getElem (sw hh : ℚ) (ds : List Nat) :
    ∀ (x : ℚ) (f : Bool) (i : ℕ) (d₀ : ℕ), ds[i]? = some d₀ →
      (drawLoopCmds sw hh ds x f)[i]? =
        some (if f ∧ i = 0 then
                PathCmd.moveTo (x + i * sw) (((d₀ : ℚ) / 128) * (hh / 2))
              else
                PathCmd.lineTo (x + i * sw) (((d₀ : ℚ) / 128) * (hh / 2)))
    := by
  induction ds with
  | nil =>
    intro x f i d₀ hd
    simp at hd
  | cons d ds ih =>
    intro x f i d₀ hd
    cases i with
    | zero =>
      simp only [List.getElem?_cons_zero, Option.some.injEq] at hd
      subst hd
      cases f with
      | false => simp [drawLoopCmds]
      | true => simp [drawLoopCmds]
    | succ i =>
      simp only [List.getElem?_cons_succ] at hd
      have hrec := ih (x + sw) false i d₀ hd
      simp only [drawLoopCmds, List.getElem?_cons_succ]
      rw [hrec]
      have harith : x + sw + (i : ℚ) * sw = x + (((i + 1 : ℕ)) : ℚ) * sw := by
        push_cast
        ring
      simp [harith]

/-- C9: one invocation of draw is a single beginPath/stroke pair around one
polyline; sample i is plotted at x = i·(canvasWidth/N) (moveTo for i = 0,
lineTo afterwards) and at y = (sample/128)·(canvasHeight/2); the normalized
value sample/128 lies in [0, 2] for byte samples. -/
theorem live_waveform_mapping (data : List Nat) (w h : ℚ)
    (hbound : ∀ d ∈ data, d ≤ 255) :
    drawCommands data w h =
      PathCmd.beginPath ::
        (drawLoopCmds (w / (data.length : ℚ)) h data 0 true ++
         [PathCmd.lineTo w (h / 2), PathCmd.stroke]) ∧
    (drawLoopCmds (w / (data.length : ℚ)) h data 0 true).length =
      data.length ∧
    (∀ (i : ℕ) (d₀ : ℕ), data[i]? = some d₀ →
      (drawLoopCmds (w / (data.length : ℚ)) h data 0 true)[i]? =
        some (if i = 0 then
                PathCmd.moveTo ((i : ℚ) * (w / (data.length : ℚ)))
                  (((d₀ : ℚ) / 128) * (h / 2))
              else
                PathCmd.lineTo ((i : ℚ) * (w / (data.length : ℚ)))
                  (((d₀ : ℚ) / 128) * (h / 2)))) ∧
    (∀ d ∈ data, 0 ≤ (d : ℚ) / 128 ∧ (d : ℚ) / 128 ≤ 2) := by
  refine ⟨rfl, drawLoopCmds_length _ _ _ _ _, ?_, ?_⟩
  · intro i d₀ hd
    have hrec := drawLoopCmds_getElem (w / (data.length : ℚ)) h data 0
      true i d₀ hd
    simpa using hrec
  · intro d hd
    constructor
    · exact div_nonneg (Nat.cast_nonneg d) (by norm_num)
    · have hle : (d : ℚ) ≤ 255 := by
        exact_mod_cast hbound d hd
      rw [div_le_iff₀ (by norm_num : (0 : ℚ) < 128)]
      linarith

/-- Witness for C9 on a concrete three-sample buffer. -/
theorem live_waveform_mapping_witness :
    drawCommands ([0, 128, 255] : List ℕ) 300 100 =
      PathCmd.beginPath ::
        (drawLoopCmds (300 / ((([0, 128, 255] : List ℕ).length : ℕ) : ℚ))
          100 ([0, 128, 255] : List ℕ) 0 true ++
         [PathCmd.lineTo 300 ((100 : ℚ) / 2), PathCmd.stroke]) :=
  (live_waveform_mapping [0, 128, 255] 300 100 (by decide)).1

end VoiceRecorder
